import Mathlib

/-
Verification of the node-group resolution engine of the machine-API
cluster-autoscaler cloud provider.

The embedding below follows the Go sources:
  - cluster-autoscaler/cloudprovider/u/u_controller.go  (the controller:
    provider-ID index lookups, ownership resolution, the node-group catalog,
    nodeGroupForNode)
  - the utilities file (minSize, maxSize, parseScalingBounds,
    machineOwnerRef, machineIsOwnedByMachineSet, machineSetMachineDeploymentRef,
    capacity parsers)
  - the clusterManager file (refreshInterval, Refresh)

Go machine integers are modelled as Int (values in play are small; no
overflow is relevant to any property proved here).  Go maps of metadata are
modelled as association lists with first-match lookup.  Fallible operations
return Except.
-/

namespace OpenshiftMachineAPI

/-- metav1.OwnerReference, restricted to the fields the sources read:
Kind, Name, UID. -/
structure OwnerReference where
  kind : String
  name : String
  uid : String
deriving Repr, DecidableEq

/-- corev1.ObjectReference as used by Machine.Status.NodeRef: Kind and Name. -/
structure ObjectReference where
  kind : String
  name : String
deriving Repr, DecidableEq

/-- v1beta1.Machine, restricted to the fields the sources read:
Namespace, Name, Spec.ProviderID, OwnerReferences, Status.NodeRef, Labels. -/
structure Machine where
  ns : String
  name : String
  providerID : Option String
  ownerReferences : List OwnerReference
  nodeRef : Option ObjectReference
  labels : List (String × String)
deriving Repr, DecidableEq

/-- v1beta1.MachineSet, restricted to the fields the sources read.
`replicas` models Spec.Replicas (*int32, hence Option). -/
structure MachineSet where
  ns : String
  name : String
  uid : String
  replicas : Option Int
  annotations : List (String × String)
  ownerReferences : List OwnerReference
  labels : List (String × String)
deriving Repr, DecidableEq

/-- v1beta1.MachineDeployment, restricted to the fields the sources read. -/
structure MachineDeployment where
  ns : String
  name : String
  uid : String
  replicas : Option Int
  annotations : List (String × String)
  ownerReferences : List OwnerReference
deriving Repr, DecidableEq

/-- corev1.Node, restricted to the fields the sources read:
Name, Spec.ProviderID, and the metadata used by findMachineByProviderID. -/
structure Node where
  name : String
  providerID : String
  annotations : List (String × String)
deriving Repr, DecidableEq

/-- Go map lookup over an association list (first match wins; a Go map has
unique keys, so first-match is faithful). -/
def lookupAnn : List (String × String) → String → Option String
  | [], _ => none
  | p :: rest, key => if p.fst = key then some p.snd else lookupAnn rest key

/-- All digits of a decimal literal, accumulated; none on a non-digit. -/
def parseDigits : List Char → Nat → Option Nat
  | [], acc => some acc
  | c :: cs, acc =>
    if c.isDigit then parseDigits cs (acc * 10 + (c.toNat - 48)) else none

/-- strconv.Atoi: optional sign followed by at least one digit, nothing else.
Overflow is not modelled (no property here involves 64-bit extremes). -/
def atoi (s : String) : Option Int :=
  match s.toList with
  | [] => none
  | '+' :: cs =>
    match cs with
    | [] => none
    | _ => (parseDigits cs 0).map Int.ofNat
  | '-' :: cs =>
    match cs with
    | [] => none
    | _ => (parseDigits cs 0).map (fun n => -(n : Int))
  | cs => (parseDigits cs 0).map Int.ofNat

def nodeGroupInstanceCPUCapacity : String :=
  "machine.openshift.io/instance-cpu-capacity"

def nodeGroupInstanceMemoryCapacity : String :=
  "machine.openshift.io/instance-memory-capacity"

def nodeGroupInstancePodCapacity : String :=
  "machine.openshift.io/instance-pod-capacity"

def nodeGroupMaxSizeAnnotationKey : String :=
  "machine.openshift.io/cluster-api-autoscaler-node-group-max-size"

def nodeGroupMinSizeAnnotationKey : String :=
  "machine.openshift.io/cluster-api-autoscaler-node-group-min-size"

/-- The error kinds the sources produce.  The bound errors correspond to the
source sentinel errors errMissingMinAnnotation, errMissingMaxAnnotation,
errInvalidMinAnnotation and errInvalidMaxAnnotation (the latter two are the
spec's InvalidBoundValue kinds, the former two its MissingBound kinds). -/
inductive CAErr where
  | missingMinBound
  | missingMaxBound
  | invalidMinBound
  | invalidMaxBound
  | invalidCapacityValue (msg : String)
  | internalDuplicates (n : Nat)
  | storeError (msg : String)
  | unknownMachineDeployment (key : String)
  | failedBuildNodegroup (nodeName : String) (e : CAErr)
deriving Repr, DecidableEq

/-- The spec's InvalidBoundValue kind covers both invalid-bound sentinels. -/
def CAErr.isInvalidBoundValue : CAErr → Bool
  | .invalidMinBound => true
  | .invalidMaxBound => true
  | _ => false

/-- minSize: the value under the min-size key; missing-key and non-integer
values are distinct errors.  A wrapped invalid error is not the missing
sentinel, which is what parseScalingBounds tests for. -/
def minSize (annotations : List (String × String)) : Except CAErr Int :=
  match lookupAnn annotations nodeGroupMinSizeAnnotationKey with
  | none => .error .missingMinBound
  | some val =>
    match atoi val with
    | none => .error .invalidMinBound
    | some i => .ok i

/-- maxSize: the value under the max-size key, same error discipline. -/
def maxSize (annotations : List (String × String)) : Except CAErr Int :=
  match lookupAnn annotations nodeGroupMaxSizeAnnotationKey with
  | none => .error .missingMaxBound
  | some val =>
    match atoi val with
    | none => .error .invalidMaxBound
    | some i => .ok i

/-- parseScalingBounds: a missing min or max sentinel is tolerated (the Go
local keeps its zero value and the error is dropped by the
`err != errMissing...` tests); any other error propagates; then negative
bounds and max < min fail. -/
def parseScalingBounds (annotations : List (String × String)) :
    Except CAErr (Int × Int) :=
  match
    (match minSize annotations with
     | .error CAErr.missingMinBound => (.ok 0 : Except CAErr Int)
     | r => r)
  with
  | .error e => .error e
  | .ok mn =>
    if mn < 0 then .error .invalidMinBound
    else
      match
        (match maxSize annotations with
         | .error CAErr.missingMaxBound => (.ok 0 : Except CAErr Int)
         | r => r)
      with
      | .error e => .error e
      | .ok mx =>
        if mx < 0 then .error .invalidMaxBound
        else if mx < mn then .error .invalidMaxBound
        else .ok (mn, mx)

section Capacity

variable {Q : Type}

/-- parseCPUCapacity: parse the cpu-capacity value only when the key exists
and the value is non-empty; otherwise no hint and no error.  The quantity
parser (resource.ParseQuantity, an external library) is a parameter. -/
def parseCPUCapacity (parseQuantity : String → Except String Q)
    (annotations : List (String × String)) : Except CAErr (Option Q) :=
  match lookupAnn annotations nodeGroupInstanceCPUCapacity with
  | some val =>
    if val ≠ "" then
      match parseQuantity val with
      | .error e => .error (.invalidCapacityValue e)
      | .ok q => .ok (some q)
    else .ok none
  | none => .ok none

/-- parseMemoryCapacity, same shape as parseCPUCapacity. -/
def parseMemoryCapacity (parseQuantity : String → Except String Q)
    (annotations : List (String × String)) : Except CAErr (Option Q) :=
  match lookupAnn annotations nodeGroupInstanceMemoryCapacity with
  | some val =>
    if val ≠ "" then
      match parseQuantity val with
      | .error e => .error (.invalidCapacityValue e)
      | .ok q => .ok (some q)
    else .ok none
  | none => .ok none

/-- parsePodCapacity, same shape as parseCPUCapacity. -/
def parsePodCapacity (parseQuantity : String → Except String Q)
    (annotations : List (String × String)) : Except CAErr (Option Q) :=
  match lookupAnn annotations nodeGroupInstancePodCapacity with
  | some val =>
    if val ≠ "" then
      match parseQuantity val with
      | .error e => .error (.invalidCapacityValue e)
      | .ok q => .ok (some q)
    else .ok none
  | none => .ok none

/-- parseCapacityValues: memory, then cpu, then pods; first error wins;
returns (cpu, mem, pods). -/
def parseCapacityValues (parseQuantity : String → Except String Q)
    (annotations : List (String × String)) :
    Except CAErr (Option Q × Option Q × Option Q) :=
  match parseMemoryCapacity parseQuantity annotations with
  | .error e => .error e
  | .ok mem =>
    match parseCPUCapacity parseQuantity annotations with
    | .error e => .error e
    | .ok cpu =>
      match parsePodCapacity parseQuantity annotations with
      | .error e => .error e
      | .ok pods => .ok (cpu, mem, pods)

end Capacity

/-- machineOwnerRef: the first owner reference of kind MachineSet with a
non-empty name (first match wins, as in the source loop). -/
def machineOwnerRef (machine : Machine) : Option OwnerReference :=
  machine.ownerReferences.find? (fun ref => ref.kind == "MachineSet" && ref.name != "")

/-- machineIsOwnedByMachineSet: true iff the machine's MachineSet owner
reference exists and its UID equals the candidate MachineSet's UID. -/
def machineIsOwnedByMachineSet (machine : Machine) (machineSet : MachineSet) : Bool :=
  match machineOwnerRef machine with
  | some ref => ref.uid == machineSet.uid
  | none => false

/-- machineSetMachineDeploymentRef: the first owner reference of kind
MachineDeployment (the source loop tests only the kind). -/
def machineSetMachineDeploymentRef (machineSet : MachineSet) : Option OwnerReference :=
  machineSet.ownerReferences.find? (fun ref => ref.kind == "MachineDeployment")

/-- machineSetHasMachineDeploymentOwnerRef. -/
def machineSetHasMachineDeploymentOwnerRef (machineSet : MachineSet) : Bool :=
  (machineSetMachineDeploymentRef machineSet).isSome

/-- machineSetIsOwnedByMachineDeployment: UID equality on the deployment
owner reference. -/
def machineSetIsOwnedByMachineDeployment (machineSet : MachineSet)
    (machineDeployment : MachineDeployment) : Bool :=
  match machineSetMachineDeploymentRef machineSet with
  | some ref => ref.uid == machineDeployment.uid
  | none => false

/-- The machineController's caches, modelled as the contents of the informer
stores.  Dynamic type-assertion failures of the Go stores are unrepresentable
here (the stores are typed), so those error paths vanish.  The three
`...ListErr` fields inject the store-level failure mode of the list
operations, whose implementations are not among the given sources
(the src stubs return nil, nil); per spec section 4.1 a list can fail with a
store-level error. -/
structure MachineController where
  machineStore : List Machine
  machineSetStore : List MachineSet
  machineDeploymentStore : List MachineDeployment
  nodeStore : List Node
  enableMachineDeployments : Bool
  machineListErr : Option String
  machineSetListErr : Option String
  machineDeploymentListErr : Option String
deriving Repr, DecidableEq

/-- The informer store key of a Machine: namespace/name. -/
def machineKey (m : Machine) : String := m.ns ++ "/" ++ m.name

/-- The informer store key of a MachineSet: namespace/name. -/
def machineSetKey (ms : MachineSet) : String := ms.ns ++ "/" ++ ms.name

/-- The informer store key of a MachineDeployment: namespace/name. -/
def machineDeploymentKey (md : MachineDeployment) : String := md.ns ++ "/" ++ md.name

/-- findMachine: GetByKey on the machine store. -/
def findMachine (c : MachineController) (id : String) : Option Machine :=
  c.machineStore.find? (fun m => machineKey m == id)

/-- findMachineDeployment: GetByKey on the machine-deployment store. -/
def findMachineDeployment (c : MachineController) (id : String) :
    Option MachineDeployment :=
  c.machineDeploymentStore.find? (fun md => machineDeploymentKey md == id)

/-- findMachineOwner: resolve the machine's MachineSet owner reference by
namespace/name in the machine-set store, then confirm identity with
machineIsOwnedByMachineSet; none when the reference is absent, dangling, or
the UID mismatches. -/
def findMachineOwner (c : MachineController) (machine : Machine) :
    Option MachineSet :=
  match machineOwnerRef machine with
  | none => none
  | some ref =>
    match c.machineSetStore.find?
        (fun ms => machineSetKey ms == machine.ns ++ "/" ++ ref.name) with
    | none => none
    | some machineSet =>
      if machineIsOwnedByMachineSet machine machineSet then some machineSet
      else none

/-- The node provider-ID index: indexNodeByProviderID emits the providerID as
an index key only when it is non-empty, so ByIndex returns the nodes whose
non-empty providerID equals the queried key. -/
def nodesByProviderIDIndex (c : MachineController) (providerID : String) :
    List Node :=
  c.nodeStore.filter (fun node => node.providerID != "" && node.providerID == providerID)

/-- findNodeByProviderID: none on an empty index bucket, the unique entry on
a singleton, and an internal-consistency error when the bucket holds more
than one entry. -/
def findNodeByProviderID (c : MachineController) (providerID : String) :
    Except CAErr (Option Node) :=
  let objs := nodesByProviderIDIndex c providerID
  match objs with
  | [] => .ok none
  | [node] => .ok (some node)
  | _ => .error (.internalDuplicates objs.length)

/-- The machine provider-ID index, per indexMachineByProviderID: a machine is
indexed under its providerID only when that is present and non-empty. -/
def machinesByProviderIDIndex (c : MachineController) (providerID : String) :
    List Machine :=
  c.machineStore.filter (fun m =>
    match m.providerID with
    | some p => p != "" && p == providerID
    | none => false)

/-- Modelled from the spec: `machineAnnotationKey` is referenced by
findMachineByProviderID but not defined in the given sources; it names the
metadata entry on a Node that points back at its Machine.  No property proved
here depends on its concrete value. -/
def machineAnnotationKey : String := "machine.openshift.io/machine"

/-- findMachineByProviderID: an index bucket with more than one entry is an
internal-consistency error; a singleton resolves directly; an empty bucket
falls back to resolving the Node by provider ID and following the machine-key
metadata entry on the node (a Go map read of a missing key yields ""). -/
def findMachineByProviderID (c : MachineController) (providerID : String) :
    Except CAErr (Option Machine) :=
  let objs := machinesByProviderIDIndex c providerID
  match objs with
  | [machine] => .ok (some machine)
  | [] =>
    match findNodeByProviderID c providerID with
    | .error e => .error e
    | .ok none => .ok none
    | .ok (some node) =>
      .ok (findMachine c ((lookupAnn node.annotations machineAnnotationKey).getD ""))
  | _ => .error (.internalDuplicates objs.length)

/-- findNodeByNodeName: GetByKey on the node store (nodes are cluster-scoped,
keyed by name). -/
def findNodeByNodeName (c : MachineController) (name : String) : Option Node :=
  c.nodeStore.find? (fun node => node.name == name)

/-- labels.SelectorFromSet(machineSet.Labels) matching: every selector pair
must appear in the candidate label set. -/
def selectorMatches (selector : List (String × String))
    (lbls : List (String × String)) : Bool :=
  selector.all (fun p => lookupAnn lbls p.fst == some p.snd)

/-- Modelled from the spec: `listMachines` is stubbed in the given source
(it returns nil, nil); per spec section 4.1/4.4 it lists every cached Machine
matching the label selector, and may fail with a store-level error (injected
through the controller state). -/
def listMachines (c : MachineController) (selector : List (String × String)) :
    Except CAErr (List Machine) :=
  match c.machineListErr with
  | some msg => .error (.storeError msg)
  | none => .ok (c.machineStore.filter (fun m => selectorMatches selector m.labels))

/-- Modelled from the spec: `listMachineSets` is stubbed in the given source;
per spec section 4.1 it lists every cached MachineSet and may fail with a
store-level error. -/
def listMachineSets (c : MachineController) : Except CAErr (List MachineSet) :=
  match c.machineSetListErr with
  | some msg => .error (.storeError msg)
  | none => .ok c.machineSetStore

/-- Modelled from the spec: `listMachineDeployments` is stubbed in the given
source; per spec section 4.1 it lists every cached MachineDeployment and may
fail with a store-level error. -/
def listMachineDeployments (c : MachineController) :
    Except CAErr (List MachineDeployment) :=
  match c.machineDeploymentListErr with
  | some msg => .error (.storeError msg)
  | none => .ok c.machineDeploymentStore

/-- machinesInMachineSet: the machines matching the set's label selector that
are additionally confirmed, by owner-reference UID, to be owned by this very
MachineSet. -/
def machinesInMachineSet (c : MachineController) (machineSet : MachineSet) :
    Except CAErr (List Machine) :=
  match listMachines c machineSet.labels with
  | .error e => .error e
  | .ok machines =>
    .ok (machines.filter (fun m => machineIsOwnedByMachineSet m machineSet))

/-- The provider-ID arm of the machineSetNodeNames loop body: when the
machine carries a non-empty providerID, look the node up in the provider-ID
index (propagating index errors); some providerID when a node was found. -/
def machineNodeViaProviderID (c : MachineController) (machine : Machine) :
    Except CAErr (Option String) :=
  match machine.providerID with
  | some pid =>
    if pid != "" then
      match findNodeByProviderID c pid with
      | .error e => .error e
      | .ok node => .ok (node.map (fun n => n.providerID))
    else .ok none
  | none => .ok none

/-- The node-reference arm of the machineSetNodeNames loop body: skip (none)
when Status.NodeRef is nil or its Kind is not Node, otherwise resolve the
node by name. -/
def machineNodeViaNodeRef (c : MachineController) (machine : Machine) :
    Option String :=
  match machine.nodeRef with
  | none => none
  | some ref =>
    if ref.kind != "Node" then none
    else (findNodeByNodeName c ref.name).map (fun n => n.providerID)

/-- One iteration of the machineSetNodeNames loop: the provider-ID mapping is
preferred; only when it yields no node does the explicit node reference get
consulted. -/
def machineNodeName (c : MachineController) (machine : Machine) :
    Except CAErr (Option String) :=
  match machineNodeViaProviderID c machine with
  | .error e => .error e
  | .ok (some pid) => .ok (some pid)
  | .ok none => .ok (machineNodeViaNodeRef c machine)

/-- The machineSetNodeNames loop, accumulating resolved provider IDs. -/
def collectNodeNames (c : MachineController) :
    List Machine → List String → Except CAErr (List String)
  | [], nodes => .ok nodes
  | machine :: rest, nodes =>
    match machineNodeName c machine with
    | .error e => .error e
    | .ok none => collectNodeNames c rest nodes
    | .ok (some n) => collectNodeNames c rest (nodes ++ [n])

/-- machineSetNodeNames: list the set's owned machines and resolve each to a
node provider ID (the Go wrapper only decorates the error message). -/
def machineSetNodeNames (c : MachineController) (machineSet : MachineSet) :
    Except CAErr (List String) :=
  match machinesInMachineSet c machineSet with
  | .error e => .error e
  | .ok machines => collectNodeNames c machines []

/-- The concrete resource a nodegroup wraps. -/
inductive ScalableResource where
  | machineSet (ms : MachineSet)
  | machineDeployment (md : MachineDeployment)
deriving Repr, DecidableEq

/-- The nodegroup: the wrapped resource plus its derived scaling bounds
(MinSize and MaxSize). -/
structure Nodegroup where
  resource : ScalableResource
  minSize : Int
  maxSize : Int
deriving Repr, DecidableEq

/-- pointer.Int32PtrDerefOr. -/
def int32PtrDerefOr (p : Option Int) (d : Int) : Int := p.getD d

/-- Modelled from the spec: `newNodegroupFromMachineSet` is not among the
given sources.  Per spec sections 4.2 and 4.4 it derives the group's scaling
bounds from the MachineSet's free-form metadata via parseScalingBounds,
failing when the bounds metadata is invalid, and wraps the MachineSet as the
group's resource. -/
def newNodegroupFromMachineSet (machineSet : MachineSet) :
    Except CAErr Nodegroup :=
  match parseScalingBounds machineSet.annotations with
  | .error e => .error e
  | .ok b => .ok ⟨ScalableResource.machineSet machineSet, b.fst, b.snd⟩

/-- Modelled from the spec: `newNodegroupFromMachineDeployment` is not among
the given sources; symmetric to newNodegroupFromMachineSet. -/
def newNodegroupFromMachineDeployment (machineDeployment : MachineDeployment) :
    Except CAErr Nodegroup :=
  match parseScalingBounds machineDeployment.annotations with
  | .error e => .error e
  | .ok b => .ok ⟨ScalableResource.machineDeployment machineDeployment, b.fst, b.snd⟩

/-- The body of the filterAllMachineSets traversal inside machineSetNodeGroups:
skip MachineSets owned by a MachineDeployment; build a nodegroup (an error
aborts the whole traversal, as the closure's error is returned through
filterMachineSets); keep it only when the scaling range is positive and the
current replica count is positive.  The accumulator is the nodegroups slice
the Go closure appends to. -/
def machineSetNodeGroupsGo :
    List MachineSet → List Nodegroup → Except CAErr (List Nodegroup)
  | [], acc => .ok acc
  | machineSet :: rest, acc =>
    if machineSetHasMachineDeploymentOwnerRef machineSet then
      machineSetNodeGroupsGo rest acc
    else
      match newNodegroupFromMachineSet machineSet with
      | .error e => .error e
      | .ok ng =>
        if ng.maxSize - ng.minSize > 0 ∧ int32PtrDerefOr machineSet.replicas 0 > 0 then
          machineSetNodeGroupsGo rest (acc ++ [ng])
        else
          machineSetNodeGroupsGo rest acc

/-- machineSetNodeGroups via filterAllMachineSets.  Note the source's
filterMachineSets drops a store-level list error (`if err != nil return nil`),
so such an error yields a successful empty build here, exactly as in the
source. -/
def machineSetNodeGroups (c : MachineController) : Except CAErr (List Nodegroup) :=
  match listMachineSets c with
  | .error _ => .ok []
  | .ok machineSets => machineSetNodeGroupsGo machineSets []

/-- The loop of machineDeploymentNodeGroups (a build error aborts the whole
loop; the same scaling-range and replica-count filter applies). -/
def machineDeploymentNodeGroupsGo :
    List MachineDeployment → List Nodegroup → Except CAErr (List Nodegroup)
  | [], acc => .ok acc
  | md :: rest, acc =>
    match newNodegroupFromMachineDeployment md with
    | .error e => .error e
    | .ok ng =>
      if ng.maxSize - ng.minSize > 0 ∧ int32PtrDerefOr md.replicas 0 > 0 then
        machineDeploymentNodeGroupsGo rest (acc ++ [ng])
      else
        machineDeploymentNodeGroupsGo rest acc

/-- machineDeploymentNodeGroups: empty when deployment grouping is disabled;
a store-level list error is fatal here (unlike the machine-set side). -/
def machineDeploymentNodeGroups (c : MachineController) :
    Except CAErr (List Nodegroup) :=
  if c.enableMachineDeployments then
    match listMachineDeployments c with
    | .error e => .error e
    | .ok mds => machineDeploymentNodeGroupsGo mds []
  else .ok []

/-- nodeGroups: the machine-set groups followed by the machine-deployment
groups. -/
def nodeGroups (c : MachineController) : Except CAErr (List Nodegroup) :=
  match machineSetNodeGroups c with
  | .error e => .error e
  | .ok machineSets =>
    match machineDeploymentNodeGroups c with
    | .error e => .error e
    | .ok machineDeployments => .ok (machineSets ++ machineDeployments)

/-- nodeGroupForNode: resolve the node to a machine through the provider-ID
index (none means no group, not an error), then to its owning MachineSet
(none again means no group); with deployment grouping enabled, a
MachineDeployment owner reference must resolve in the cache or the call
fails with an unknown-reference error; finally a group whose scaling range
is below 1 yields none. -/
def nodeGroupForNode (c : MachineController) (node : Node) :
    Except CAErr (Option Nodegroup) :=
  match findMachineByProviderID c node.providerID with
  | .error e => .error e
  | .ok none => .ok none
  | .ok (some machine) =>
    match findMachineOwner c machine with
    | none => .ok none
    | some machineSet =>
      match
        (if c.enableMachineDeployments then machineSetMachineDeploymentRef machineSet
         else none)
      with
      | some ref =>
        let key := machineSet.ns ++ "/" ++ ref.name
        match findMachineDeployment c key with
        | none => .error (.unknownMachineDeployment key)
        | some machineDeployment =>
          match newNodegroupFromMachineDeployment machineDeployment with
          | .error e => .error (.failedBuildNodegroup node.name e)
          | .ok ng =>
            if ng.maxSize - ng.minSize < 1 then .ok none else .ok (some ng)
      | none =>
        match newNodegroupFromMachineSet machineSet with
        | .error e => .error (.failedBuildNodegroup node.name e)
        | .ok ng =>
          if ng.maxSize - ng.minSize < 1 then .ok none else .ok (some ng)

/-- The clusterManager's refresh-relevant state: the time of the last
successful rebuild and the current snapshot (none before the first
successful rebuild).  Time is modelled as Nat time units. -/
structure ClusterManager (S : Type) where
  lastRefresh : Nat
  clusterSnapshot : Option S
deriving Repr, DecidableEq

/-- refreshInterval = 30 time units. -/
def refreshInterval : Nat := 30

/-- Refresh: when less than refreshInterval has elapsed since lastRefresh
(lastRefresh + interval is still after now) and a snapshot exists, do
nothing and succeed; otherwise attempt a rebuild, whose outcome is the
`build` argument (getClusterSnaphot performs I/O, modelled as a parameter):
on success install the new snapshot and timestamp, on failure leave the
state untouched and return the error to the caller. -/
def Refresh {S : Type} (m : ClusterManager S) (now : Nat)
    (build : Except String S) : ClusterManager S × Except String Unit :=
  if m.lastRefresh + refreshInterval > now ∧ m.clusterSnapshot.isSome = true then
    (m, .ok ())
  else
    match build with
    | .ok s => (⟨now, some s⟩, .ok ())
    | .error e => (m, .error e)

/-! ### Shared lemmas -/

/-- lookupAnn after erasing a key: the erased key reads none. -/
def eraseAnn (pairs : List (String × String)) (key : String) :
    List (String × String) :=
  pairs.filter (fun p => p.fst != key)

theorem lookupAnn_eraseAnn_self (pairs : List (String × String)) (key : String) :
    lookupAnn (eraseAnn pairs key) key = none := by
  induction pairs with
  | nil => rfl
  | cons p rest ih =>
    by_cases h : p.fst = key
    · simpa [eraseAnn, List.filter_cons, h] using ih
    · simpa [eraseAnn, List.filter_cons, h, lookupAnn] using ih

theorem lookupAnn_eraseAnn_other (pairs : List (String × String))
    (key other : String) (hne : other ≠ key) :
    lookupAnn (eraseAnn pairs key) other = lookupAnn pairs other := by
  induction pairs with
  | nil => rfl
  | cons p rest ih =>
    simp only [eraseAnn] at ih ⊢
    rw [List.filter_cons]
    have hko : ¬ key = other := fun hc => hne hc.symm
    by_cases h : p.fst = key
    · have hpo : ¬ p.fst = other := by rw [h]; exact hko
      simp [h, lookupAnn, hpo, hko, hne, ih]
    · by_cases hpo : p.fst = other
      · simp [h, lookupAnn, hpo, hko, hne]
      · simp [h, lookupAnn, hpo, hko, hne, ih]

/-! ### C1 -/

/-- C1: whenever findMachineOwner returns a MachineSet s for a machine m,
machineIsOwnedByMachineSet m s holds, i.e. m's MachineSet owner reference
exists and its unique id equals s's unique id; a mere name match can never
produce a result with a differing uid. -/
theorem findMachineOwner_confirms_identity
    (c : MachineController) (m : Machine) (s : MachineSet)
    (h : findMachineOwner c m = some s) :
    machineIsOwnedByMachineSet m s = true ∧
    ∃ ref, machineOwnerRef m = some ref ∧ ref.uid = s.uid := by
  unfold findMachineOwner at h
  split at h
  · cases h
  · rename_i ref href
    split at h
    · cases h
    · rename_i ms hfind
      split at h
      · rename_i howned
        cases h
        refine ⟨howned, ref, href, ?_⟩
        unfold machineIsOwnedByMachineSet at howned
        rw [href] at howned
        exact eq_of_beq howned
      · cases h

/-- Witness for C1: a concrete cache in which the machine's owner reference
names and uid-matches the stored MachineSet. -/
def exMachineC1 : Machine :=
  ⟨"ns1", "m1", none, [⟨"MachineSet", "s1", "uid1"⟩], none, []⟩

def exMachineSetC1 : MachineSet :=
  ⟨"ns1", "s1", "uid1", some 1, [], [], []⟩

def exControllerC1 : MachineController :=
  ⟨[exMachineC1], [exMachineSetC1], [], [], false, none, none, none⟩

theorem findMachineOwner_confirms_identity_witness :
    machineIsOwnedByMachineSet exMachineC1 exMachineSetC1 = true ∧
    ∃ ref, machineOwnerRef exMachineC1 = some ref ∧ ref.uid = exMachineSetC1.uid :=
  findMachineOwner_confirms_identity exControllerC1 exMachineC1 exMachineSetC1 rfl

/-! ### C3 -/

/-- C3 counterexample: the empty metadata mapping has no max-size key, yet
parseScalingBounds succeeds with bounds (0, 0) rather than failing with a
missing-bound error. -/
theorem parseScalingBounds_noMax_succeeds :
    lookupAnn [] nodeGroupMaxSizeAnnotationKey = none ∧
    parseScalingBounds [] = .ok (0, 0) :=
  ⟨rfl, rfl⟩

/-- C3 amended: with no max-size key, parseScalingBounds never fails with a
missing-bound error; it substitutes 0 for the missing maximum, so it fails
with the invalid-max error when the resolved minimum is positive, succeeds
with (0, 0) when the resolved minimum is 0, and otherwise reports the
minimum's own fault. -/
theorem parseScalingBounds_missing_max (annotations : List (String × String))
    (h : lookupAnn annotations nodeGroupMaxSizeAnnotationKey = none) :
    parseScalingBounds annotations =
      match minSize annotations with
      | .error CAErr.missingMinBound => .ok (0, 0)
      | .error e => .error e
      | .ok mn =>
        if mn < 0 then .error .invalidMinBound
        else if 0 < mn then .error .invalidMaxBound
        else .ok (0, 0) := by
  have hmax : maxSize annotations = .error .missingMaxBound := by
    unfold maxSize
    rw [h]
  unfold parseScalingBounds
  rw [hmax]
  cases hmin : minSize annotations with
  | error e =>
    cases e <;> simp
  | ok mn =>
    simp only
    by_cases hneg : mn < 0
    · simp only [if_pos hneg]
    · simp only [if_neg hneg]
      by_cases hpos : 0 < mn
      · have h00 : ¬ ((0 : Int) < 0) := by omega
        simp only [if_neg h00, if_pos hpos]
      · have hz : mn = 0 := by omega
        subst hz
        simp

theorem parseScalingBounds_missing_max_witness :
    parseScalingBounds [(nodeGroupMinSizeAnnotationKey, "1")] =
      .error .invalidMaxBound :=
  (parseScalingBounds_missing_max [(nodeGroupMinSizeAnnotationKey, "1")] rfl).trans rfl

/-! ### C8 -/

/-- C8: parseScalingBounds on min 1 / max 5 returns (1, 5); on min 5 / max 1
it fails with an InvalidBoundValue kind (resolved max below min); on min -1 /
max 5 it fails with an InvalidBoundValue kind (negative bound). -/
theorem parseScalingBounds_examples :
    parseScalingBounds
      [(nodeGroupMinSizeAnnotationKey, "1"), (nodeGroupMaxSizeAnnotationKey, "5")] =
      .ok (1, 5) ∧
    (∃ e, parseScalingBounds
      [(nodeGroupMinSizeAnnotationKey, "5"), (nodeGroupMaxSizeAnnotationKey, "1")] =
      .error e ∧ e.isInvalidBoundValue = true) ∧
    (∃ e, parseScalingBounds
      [(nodeGroupMinSizeAnnotationKey, "-1"), (nodeGroupMaxSizeAnnotationKey, "5")] =
      .error e ∧ e.isInvalidBoundValue = true) :=
  ⟨rfl, ⟨.invalidMaxBound, rfl, rfl⟩, ⟨.invalidMinBound, rfl, rfl⟩⟩

/-! ### C4 -/

/-- A MachineSet whose max-size metadata does not parse as an integer. -/
def exMachineSetBadC4 : MachineSet :=
  ⟨"ns1", "bad", "uidbad", some 1,
   [(nodeGroupMinSizeAnnotationKey, "1"), (nodeGroupMaxSizeAnnotationKey, "junk")],
   [], []⟩

/-- A well-formed, eligible MachineSet. -/
def exMachineSetGoodC4 : MachineSet :=
  ⟨"ns1", "good", "uidgood", some 1,
   [(nodeGroupMinSizeAnnotationKey, "1"), (nodeGroupMaxSizeAnnotationKey, "5")],
   [], []⟩

def exControllerC4 : MachineController :=
  ⟨[], [exMachineSetBadC4, exMachineSetGoodC4], [], [], false, none, none, none⟩

def exControllerC4Store : MachineController :=
  ⟨[], [exMachineSetGoodC4], [], [], false, none, some "cache unreadable", none⟩

/-- C4: the code contradicts the per-group isolation contract in both
directions.  At a cache holding one MachineSet with invalid bounds metadata
and one perfectly eligible MachineSet, the whole catalog build aborts with
the per-group fault and the eligible group is lost; and at a cache whose
machine-set list fails with a store-level error, the build silently succeeds
with an empty catalog instead of failing. -/
theorem machineSetNodeGroups_faults :
    machineSetNodeGroups exControllerC4 = .error .invalidMaxBound ∧
    machineSetNodeGroups exControllerC4Store = .ok [] :=
  ⟨rfl, rfl⟩

/-! ### C10 -/

/-- C10: a capacity key bound to the empty string behaves exactly like an
absent key: the per-dimension parser yields no hint and no error, and
parseCapacityValues gives precisely the result it gives once the pair is
erased from the metadata — for each of the cpu, memory and pods keys, and
for every quantity parser. -/
theorem capacityHints_empty_like_absent {Q : Type}
    (parseQuantity : String → Except String Q)
    (annotations : List (String × String)) :
    (lookupAnn annotations nodeGroupInstanceCPUCapacity = some "" →
      parseCPUCapacity parseQuantity annotations = .ok none ∧
      parseCapacityValues parseQuantity annotations =
        parseCapacityValues parseQuantity
          (eraseAnn annotations nodeGroupInstanceCPUCapacity)) ∧
    (lookupAnn annotations nodeGroupInstanceMemoryCapacity = some "" →
      parseMemoryCapacity parseQuantity annotations = .ok none ∧
      parseCapacityValues parseQuantity annotations =
        parseCapacityValues parseQuantity
          (eraseAnn annotations nodeGroupInstanceMemoryCapacity)) ∧
    (lookupAnn annotations nodeGroupInstancePodCapacity = some "" →
      parsePodCapacity parseQuantity annotations = .ok none ∧
      parseCapacityValues parseQuantity annotations =
        parseCapacityValues parseQuantity
          (eraseAnn annotations nodeGroupInstancePodCapacity)) := by
  have hcm : nodeGroupInstanceCPUCapacity ≠ nodeGroupInstanceMemoryCapacity := by decide
  have hcp : nodeGroupInstanceCPUCapacity ≠ nodeGroupInstancePodCapacity := by decide
  have hmc : nodeGroupInstanceMemoryCapacity ≠ nodeGroupInstanceCPUCapacity := by decide
  have hmp : nodeGroupInstanceMemoryCapacity ≠ nodeGroupInstancePodCapacity := by decide
  have hpc : nodeGroupInstancePodCapacity ≠ nodeGroupInstanceCPUCapacity := by decide
  have hpm : nodeGroupInstancePodCapacity ≠ nodeGroupInstanceMemoryCapacity := by decide
  refine ⟨fun h => ?_, fun h => ?_, fun h => ?_⟩
  · have hcpu : parseCPUCapacity parseQuantity annotations = .ok none := by
      unfold parseCPUCapacity; rw [h]; simp
    have hcpuE : parseCPUCapacity parseQuantity
        (eraseAnn annotations nodeGroupInstanceCPUCapacity) = .ok none := by
      unfold parseCPUCapacity
      rw [lookupAnn_eraseAnn_self]
    refine ⟨hcpu, ?_⟩
    unfold parseCapacityValues
    unfold parseMemoryCapacity parsePodCapacity
    rw [lookupAnn_eraseAnn_other annotations _ _ hmc,
        lookupAnn_eraseAnn_other annotations _ _ hpc, hcpu, hcpuE]
  · have hmem : parseMemoryCapacity parseQuantity annotations = .ok none := by
      unfold parseMemoryCapacity; rw [h]; simp
    have hmemE : parseMemoryCapacity parseQuantity
        (eraseAnn annotations nodeGroupInstanceMemoryCapacity) = .ok none := by
      unfold parseMemoryCapacity
      rw [lookupAnn_eraseAnn_self]
    refine ⟨hmem, ?_⟩
    unfold parseCapacityValues
    unfold parseCPUCapacity parsePodCapacity
    rw [lookupAnn_eraseAnn_other annotations _ _ hcm,
        lookupAnn_eraseAnn_other annotations _ _ hpm, hmem, hmemE]
  · have hpod : parsePodCapacity parseQuantity annotations = .ok none := by
      unfold parsePodCapacity; rw [h]; simp
    have hpodE : parsePodCapacity parseQuantity
        (eraseAnn annotations nodeGroupInstancePodCapacity) = .ok none := by
      unfold parsePodCapacity
      rw [lookupAnn_eraseAnn_self]
    refine ⟨hpod, ?_⟩
    unfold parseCapacityValues
    unfold parseCPUCapacity parseMemoryCapacity
    rw [lookupAnn_eraseAnn_other annotations _ _ hcp,
        lookupAnn_eraseAnn_other annotations _ _ hmp, hpod, hpodE]

theorem capacityHints_empty_like_absent_witness :
    parseCPUCapacity (fun _ => (.error "unparsable" : Except String Nat))
      [(nodeGroupInstanceCPUCapacity, "")] = .ok none ∧
    parseCapacityValues (fun _ => (.error "unparsable" : Except String Nat))
      [(nodeGroupInstanceCPUCapacity, "")] =
      parseCapacityValues (fun _ => (.error "unparsable" : Except String Nat))
        (eraseAnn [(nodeGroupInstanceCPUCapacity, "")] nodeGroupInstanceCPUCapacity) :=
  (capacityHints_empty_like_absent (fun _ => (.error "unparsable" : Except String Nat))
    [(nodeGroupInstanceCPUCapacity, "")]).1 rfl

/-! ### C5 -/

/-- C5: a provider-ID index bucket holding more than one entry makes the
lookup fail with an internal-consistency error, for nodes and for machines
alike; and a successful non-empty node lookup certifies the bucket was a
singleton — no entry is ever silently picked. -/
theorem providerIDIndex_duplicates_fail (c : MachineController)
    (providerID : String) :
    ((nodesByProviderIDIndex c providerID).length > 1 →
      findNodeByProviderID c providerID =
        .error (.internalDuplicates (nodesByProviderIDIndex c providerID).length)) ∧
    ((machinesByProviderIDIndex c providerID).length > 1 →
      findMachineByProviderID c providerID =
        .error (.internalDuplicates (machinesByProviderIDIndex c providerID).length)) ∧
    (∀ node, findNodeByProviderID c providerID = .ok (some node) →
      nodesByProviderIDIndex c providerID = [node]) := by
  refine ⟨fun h => ?_, fun h => ?_, fun node h => ?_⟩
  · unfold findNodeByProviderID
    cases hl : nodesByProviderIDIndex c providerID with
    | nil => rw [hl] at h; simp at h
    | cons a rest =>
      cases rest with
      | nil => rw [hl] at h; simp at h
      | cons b rest2 => simp [hl]
  · unfold findMachineByProviderID
    cases hl : machinesByProviderIDIndex c providerID with
    | nil => rw [hl] at h; simp at h
    | cons a rest =>
      cases rest with
      | nil => rw [hl] at h; simp at h
      | cons b rest2 => simp [hl]
  · unfold findNodeByProviderID at h
    cases hl : nodesByProviderIDIndex c providerID with
    | nil => rw [hl] at h; cases h
    | cons a rest =>
      cases rest with
      | nil =>
        rw [hl] at h
        simp only [Except.ok.injEq, Option.some.injEq] at h
        rw [h]
      | cons b rest2 => rw [hl] at h; cases h

/-- Witness cache for C5: two distinct nodes and two distinct machines share
provider ID p1. -/
def exControllerC5 : MachineController :=
  ⟨[⟨"ns1", "m1", some "p1", [], none, []⟩, ⟨"ns1", "m2", some "p1", [], none, []⟩],
   [], [],
   [⟨"n1", "p1", []⟩, ⟨"n2", "p1", []⟩],
   false, none, none, none⟩

theorem providerIDIndex_duplicates_fail_witness :
    findNodeByProviderID exControllerC5 "p1" = .error (.internalDuplicates 2) ∧
    findMachineByProviderID exControllerC5 "p1" = .error (.internalDuplicates 2) :=
  ⟨by
    have h := (providerIDIndex_duplicates_fail exControllerC5 "p1").1
    exact h (by decide),
   by
    have h := (providerIDIndex_duplicates_fail exControllerC5 "p1").2.1
    exact h (by decide)⟩

/-! ### C9 -/

/-- C9: the refresh gate.  First conjunct: with a snapshot in place and less
than refreshInterval elapsed since the last successful rebuild, Refresh
leaves the state untouched and succeeds, whatever a rebuild would have
produced — no rebuild is consulted.  Second conjunct: a failing rebuild
never changes the state (the previous snapshot keeps serving), and when the
gate did force a rebuild the failure is returned to the caller of this very
call. -/
theorem Refresh_gate_and_failure {S : Type} :
    (∀ (m : ClusterManager S) (now : Nat) (build : Except String S) (s : S),
      m.lastRefresh + refreshInterval > now → m.clusterSnapshot = some s →
      Refresh m now build = (m, .ok ())) ∧
    (∀ (m : ClusterManager S) (now : Nat) (e : String),
      (Refresh m now (.error e)).fst = m ∧
      (¬ (m.lastRefresh + refreshInterval > now ∧ m.clusterSnapshot.isSome = true) →
        (Refresh m now (.error e)).snd = .error e)) := by
  constructor
  · intro m now build s hfresh hsnap
    unfold Refresh
    rw [if_pos ⟨hfresh, by rw [hsnap]; rfl⟩]
  · intro m now e
    constructor
    · unfold Refresh
      by_cases hgate : m.lastRefresh + refreshInterval > now ∧ m.clusterSnapshot.isSome = true
      · rw [if_pos hgate]
      · rw [if_neg hgate]
    · intro hgate
      unfold Refresh
      rw [if_neg hgate]

theorem Refresh_gate_and_failure_witness :
    Refresh (⟨0, some 7⟩ : ClusterManager Nat) 10 (.error "rebuild failed") =
      ((⟨0, some 7⟩ : ClusterManager Nat), .ok ()) ∧
    (Refresh (⟨0, none⟩ : ClusterManager Nat) 50 (.error "rebuild failed")).fst =
      (⟨0, none⟩ : ClusterManager Nat) ∧
    (Refresh (⟨0, none⟩ : ClusterManager Nat) 50 (.error "rebuild failed")).snd =
      .error "rebuild failed" :=
  ⟨(Refresh_gate_and_failure.1 ⟨0, some 7⟩ 10 (.error "rebuild failed") 7
      (by decide) rfl),
   (Refresh_gate_and_failure.2 ⟨0, none⟩ 50 "rebuild failed").1,
   (Refresh_gate_and_failure.2 ⟨0, none⟩ 50 "rebuild failed").2
     (by intro hc; exact absurd hc.2 (by decide))⟩

/-! ### C2 -/

/-- C2: absence versus integrity faults in nodeGroupForNode.  First: a node
whose provider ID resolves to no machine gets none, not an error.  Second: a
resolved machine with no confirmed owning MachineSet gets none, not an
error.  Third: with deployment grouping enabled, a MachineSet whose
MachineDeployment owner reference does not resolve in the cache makes the
call fail with an unknown-reference error rather than none. -/
theorem nodeGroupForNode_absence_vs_integrity (c : MachineController) (node : Node) :
    (findMachineByProviderID c node.providerID = .ok none →
      nodeGroupForNode c node = .ok none) ∧
    (∀ machine, findMachineByProviderID c node.providerID = .ok (some machine) →
      findMachineOwner c machine = none →
      nodeGroupForNode c node = .ok none) ∧
    (∀ machine machineSet ref,
      c.enableMachineDeployments = true →
      findMachineByProviderID c node.providerID = .ok (some machine) →
      findMachineOwner c machine = some machineSet →
      machineSetMachineDeploymentRef machineSet = some ref →
      findMachineDeployment c (machineSet.ns ++ "/" ++ ref.name) = none →
      nodeGroupForNode c node =
        .error (.unknownMachineDeployment (machineSet.ns ++ "/" ++ ref.name))) := by
  refine ⟨fun h => ?_, fun machine h howner => ?_,
    fun machine machineSet ref henable h howner href hfind => ?_⟩
  · unfold nodeGroupForNode
    rw [h]
  · unfold nodeGroupForNode
    simp only [h, howner]
  · unfold nodeGroupForNode
    simp only [h, howner, henable, if_true, href, hfind]

/-- Witness caches for C2: an empty cache (no machine for the provider ID);
a machine with no owner reference; and a machine whose owning MachineSet
carries a dangling MachineDeployment owner reference. -/
def exControllerC2a : MachineController :=
  ⟨[], [], [], [], false, none, none, none⟩

def exMachineC2b : Machine := ⟨"ns1", "m1", some "p1", [], none, []⟩

def exControllerC2b : MachineController :=
  ⟨[exMachineC2b], [], [], [], false, none, none, none⟩

def exMachineC2c : Machine :=
  ⟨"ns1", "m1", some "p2", [⟨"MachineSet", "s1", "uid1"⟩], none, []⟩

def exMachineSetC2c : MachineSet :=
  ⟨"ns1", "s1", "uid1", some 1, [], [⟨"MachineDeployment", "d1", "uidD"⟩], []⟩

def exControllerC2c : MachineController :=
  ⟨[exMachineC2c], [exMachineSetC2c], [], [], true, none, none, none⟩

theorem nodeGroupForNode_absence_vs_integrity_witness :
    nodeGroupForNode exControllerC2a ⟨"n0", "p0", []⟩ = .ok none ∧
    nodeGroupForNode exControllerC2b ⟨"n1", "p1", []⟩ = .ok none ∧
    nodeGroupForNode exControllerC2c ⟨"n2", "p2", []⟩ =
      .error (.unknownMachineDeployment ("ns1" ++ "/" ++ "d1")) :=
  ⟨(nodeGroupForNode_absence_vs_integrity exControllerC2a ⟨"n0", "p0", []⟩).1 rfl,
   (nodeGroupForNode_absence_vs_integrity exControllerC2b ⟨"n1", "p1", []⟩).2.1
     exMachineC2b rfl rfl,
   (nodeGroupForNode_absence_vs_integrity exControllerC2c ⟨"n2", "p2", []⟩).2.2
     exMachineC2c exMachineSetC2c ⟨"MachineDeployment", "d1", "uidD"⟩
     rfl rfl rfl rfl rfl⟩

/-! ### C7 -/

/-- C7: membership and node resolution for a group's member listing.  First:
every machine selected by machinesInMachineSet both matches the set's label
selector and is confirmed by owner-reference uid to be owned by this very
set.  Second: a machine carrying a non-empty provider ID whose index lookup
finds a node is resolved to that node, preferentially, via the index.
Third: a machine the index cannot serve (no provider ID, empty provider ID,
or an index miss) whose node reference is absent or of the wrong kind is
skipped — resolution yields none, not an error. -/
theorem membersOf_identity_and_resolution (c : MachineController)
    (machineSet : MachineSet) :
    (∀ machines machine, machinesInMachineSet c machineSet = .ok machines →
      machine ∈ machines →
      selectorMatches machineSet.labels machine.labels = true ∧
      machineIsOwnedByMachineSet machine machineSet = true) ∧
    (∀ machine pid node, machine.providerID = some pid → pid ≠ "" →
      findNodeByProviderID c pid = .ok (some node) →
      machineNodeName c machine = .ok (some node.providerID)) ∧
    (∀ machine,
      (machine.providerID = none ∨ machine.providerID = some "" ∨
        (∃ pid, machine.providerID = some pid ∧
          findNodeByProviderID c pid = .ok none)) →
      (machine.nodeRef = none ∨
        (∃ ref, machine.nodeRef = some ref ∧ ref.kind ≠ "Node")) →
      machineNodeName c machine = .ok none) := by
  refine ⟨fun machines machine hok hmem => ?_, fun machine pid node hpid hne hfound => ?_,
    fun machine hindex href => ?_⟩
  · unfold machinesInMachineSet at hok
    cases hlist : listMachines c machineSet.labels with
    | error e => rw [hlist] at hok; cases hok
    | ok all =>
      rw [hlist] at hok
      simp only [Except.ok.injEq] at hok
      subst hok
      have hmem2 := List.mem_filter.mp hmem
      refine ⟨?_, hmem2.2⟩
      unfold listMachines at hlist
      cases herr : c.machineListErr with
      | some msg => rw [herr] at hlist; cases hlist
      | none =>
        rw [herr] at hlist
        simp only [Except.ok.injEq] at hlist
        have := hmem2.1
        rw [← hlist] at this
        exact (List.mem_filter.mp this).2
  · have hvia : machineNodeViaProviderID c machine = .ok (some node.providerID) := by
      unfold machineNodeViaProviderID
      have hb : (pid != "") = true := bne_iff_ne.mpr hne
      simp only [hpid, hb, if_true, hfound]
      rfl
    unfold machineNodeName
    rw [hvia]
  · have hvia : machineNodeViaProviderID c machine = .ok none := by
      unfold machineNodeViaProviderID
      rcases hindex with h | h | ⟨pid, hp, hmiss⟩
      · rw [h]
      · simp [h]
      · by_cases hempty : pid = ""
        · subst hempty; simp [hp]
        · have hb : (pid != "") = true := bne_iff_ne.mpr hempty
          simp only [hp, hb, if_true, hmiss]
          rfl
    have hrefnone : machineNodeViaNodeRef c machine = none := by
      unfold machineNodeViaNodeRef
      rcases href with h | ⟨ref, hr, hk⟩
      · rw [h]
      · have hb : (ref.kind != "Node") = true := bne_iff_ne.mpr hk
        simp only [hr, hb, if_true]
    unfold machineNodeName
    rw [hvia, hrefnone]

/-- Witness data for C7: a labelled, uid-owned machine resolved through the
provider-ID index; and a machine with an empty provider ID and a node
reference of the wrong kind, which is skipped. -/
def exMachineSetC7 : MachineSet :=
  ⟨"ns1", "s1", "uid1", some 1, [], [], [("role", "worker")]⟩

def exMachineC7 : Machine :=
  ⟨"ns1", "m1", some "p7", [⟨"MachineSet", "s1", "uid1"⟩], none,
   [("role", "worker"), ("extra", "x")]⟩

def exMachineC7skip : Machine :=
  ⟨"ns1", "m2", some "", [⟨"MachineSet", "s1", "uid1"⟩],
   some ⟨"Pod", "n7"⟩, [("role", "worker")]⟩

def exNodeC7 : Node := ⟨"n7", "p7", []⟩

def exControllerC7 : MachineController :=
  ⟨[exMachineC7, exMachineC7skip], [exMachineSetC7], [], [exNodeC7],
   false, none, none, none⟩

theorem membersOf_identity_and_resolution_witness :
    (selectorMatches exMachineSetC7.labels exMachineC7.labels = true ∧
      machineIsOwnedByMachineSet exMachineC7 exMachineSetC7 = true) ∧
    machineNodeName exControllerC7 exMachineC7 = .ok (some exNodeC7.providerID) ∧
    machineNodeName exControllerC7 exMachineC7skip = .ok none :=
  ⟨(membersOf_identity_and_resolution exControllerC7 exMachineSetC7).1
     [exMachineC7, exMachineC7skip] exMachineC7 rfl (by simp),
   (membersOf_identity_and_resolution exControllerC7 exMachineSetC7).2.1
     exMachineC7 "p7" exNodeC7 rfl (by decide) rfl,
   (membersOf_identity_and_resolution exControllerC7 exMachineSetC7).2.2
     exMachineC7skip (Or.inr (Or.inl rfl))
     (Or.inr ⟨⟨"Pod", "n7"⟩, rfl, by decide⟩)⟩

/-! ### C6 -/

/-- The eligibility the claim asserts of every catalog entry: positive
scaling range; a wrapped MachineSet has no MachineDeployment owner reference
and a positive replica count; a wrapped MachineDeployment has a positive
replica count. -/
def eligibleNodegroup (ng : Nodegroup) : Bool :=
  decide (ng.maxSize - ng.minSize > 0) &&
  (match ng.resource with
   | .machineSet ms =>
     !machineSetHasMachineDeploymentOwnerRef ms &&
     decide (int32PtrDerefOr ms.replicas 0 > 0)
   | .machineDeployment md => decide (int32PtrDerefOr md.replicas 0 > 0))

theorem newNodegroupFromMachineSet_resource (ms : MachineSet) (ng : Nodegroup)
    (h : newNodegroupFromMachineSet ms = .ok ng) :
    ng.resource = .machineSet ms := by
  unfold newNodegroupFromMachineSet at h
  cases hp : parseScalingBounds ms.annotations with
  | error e => rw [hp] at h; cases h
  | ok b => rw [hp] at h; cases h; rfl

theorem newNodegroupFromMachineDeployment_resource (md : MachineDeployment)
    (ng : Nodegroup) (h : newNodegroupFromMachineDeployment md = .ok ng) :
    ng.resource = .machineDeployment md := by
  unfold newNodegroupFromMachineDeployment at h
  cases hp : parseScalingBounds md.annotations with
  | error e => rw [hp] at h; cases h
  | ok b => rw [hp] at h; cases h; rfl

theorem machineSetNodeGroupsGo_eligible (l : List MachineSet) :
    ∀ (acc gs : List Nodegroup),
      (∀ g ∈ acc, eligibleNodegroup g = true) →
      machineSetNodeGroupsGo l acc = .ok gs →
      ∀ g ∈ gs, eligibleNodegroup g = true := by
  induction l with
  | nil =>
    intro acc gs hacc h
    unfold machineSetNodeGroupsGo at h
    simp only [Except.ok.injEq] at h
    subst h
    exact hacc
  | cons ms rest ih =>
    intro acc gs hacc h
    unfold machineSetNodeGroupsGo at h
    cases hdep : machineSetHasMachineDeploymentOwnerRef ms with
    | true =>
      rw [hdep] at h
      simp only [if_true] at h
      exact ih acc gs hacc h
    | false =>
      rw [hdep] at h
      simp only [Bool.false_eq_true, if_false] at h
      cases hng : newNodegroupFromMachineSet ms with
      | error e => rw [hng] at h; cases h
      | ok ng =>
        simp only [hng] at h
        by_cases hcond : ng.maxSize - ng.minSize > 0 ∧ int32PtrDerefOr ms.replicas 0 > 0
        · rw [if_pos hcond] at h
          refine ih (acc ++ [ng]) gs (fun g hg => ?_) h
          rcases List.mem_append.mp hg with hg1 | hg2
          · exact hacc g hg1
          · have hgng : g = ng := by simpa using hg2
            subst hgng
            unfold eligibleNodegroup
            rw [newNodegroupFromMachineSet_resource ms g hng]
            simp [hcond.1, hcond.2, hdep]
        · rw [if_neg hcond] at h
          exact ih acc gs hacc h

theorem machineDeploymentNodeGroupsGo_eligible (l : List MachineDeployment) :
    ∀ (acc gs : List Nodegroup),
      (∀ g ∈ acc, eligibleNodegroup g = true) →
      machineDeploymentNodeGroupsGo l acc = .ok gs →
      ∀ g ∈ gs, eligibleNodegroup g = true := by
  induction l with
  | nil =>
    intro acc gs hacc h
    unfold machineDeploymentNodeGroupsGo at h
    simp only [Except.ok.injEq] at h
    subst h
    exact hacc
  | cons md rest ih =>
    intro acc gs hacc h
    unfold machineDeploymentNodeGroupsGo at h
    cases hng : newNodegroupFromMachineDeployment md with
    | error e => rw [hng] at h; cases h
    | ok ng =>
      simp only [hng] at h
      by_cases hcond : ng.maxSize - ng.minSize > 0 ∧ int32PtrDerefOr md.replicas 0 > 0
      · rw [if_pos hcond] at h
        refine ih (acc ++ [ng]) gs (fun g hg => ?_) h
        rcases List.mem_append.mp hg with hg1 | hg2
        · exact hacc g hg1
        · have hgng : g = ng := by simpa using hg2
          subst hgng
          unfold eligibleNodegroup
          rw [newNodegroupFromMachineDeployment_resource md g hng]
          simp [hcond.1, hcond.2]
      · rw [if_neg hcond] at h
        exact ih acc gs hacc h

/-- C6: every group the catalog yields is eligible — a wrapped MachineSet
has no MachineDeployment owner reference, every entry has a positive
scaling range, and the wrapped resource's current replica count is
positive; and nodeGroupForNode only ever returns a group whose scaling
range is at least 1. -/
theorem nodeGroups_eligibility (c : MachineController) :
    (∀ gs, nodeGroups c = .ok gs → ∀ ng ∈ gs, eligibleNodegroup ng = true) ∧
    (∀ node ng, nodeGroupForNode c node = .ok (some ng) →
      ng.maxSize - ng.minSize ≥ 1) := by
  constructor
  · intro gs h ng hmem
    unfold nodeGroups at h
    cases hms : machineSetNodeGroups c with
    | error e => rw [hms] at h; cases h
    | ok msGroups =>
      rw [hms] at h
      cases hmd : machineDeploymentNodeGroups c with
      | error e => rw [hmd] at h; cases h
      | ok mdGroups =>
        rw [hmd] at h
        simp only [Except.ok.injEq] at h
        subst h
        have hmsE : ∀ g ∈ msGroups, eligibleNodegroup g = true := by
          unfold machineSetNodeGroups at hms
          cases hl : listMachineSets c with
          | error e =>
            rw [hl] at hms
            simp only [Except.ok.injEq] at hms
            subst hms
            intro g hg
            cases hg
          | ok l =>
            rw [hl] at hms
            exact machineSetNodeGroupsGo_eligible l [] msGroups (by simp) hms
        have hmdE : ∀ g ∈ mdGroups, eligibleNodegroup g = true := by
          unfold machineDeploymentNodeGroups at hmd
          by_cases he : c.enableMachineDeployments = true
          · rw [if_pos he] at hmd
            cases hl : listMachineDeployments c with
            | error e => rw [hl] at hmd; cases hmd
            | ok l =>
              rw [hl] at hmd
              exact machineDeploymentNodeGroupsGo_eligible l [] mdGroups (by simp) hmd
          · rw [if_neg he] at hmd
            simp only [Except.ok.injEq] at hmd
            subst hmd
            intro g hg
            cases hg
        rcases List.mem_append.mp hmem with hg1 | hg2
        · exact hmsE ng hg1
        · exact hmdE ng hg2
  · intro node ng h
    unfold nodeGroupForNode at h
    repeat' split at h
    all_goals simp_all
    all_goals (repeat' split at h)
    all_goals simp_all

/-- Witness data for C6: one eligible MachineSet, reachable from a node via
a machine. -/
def exMachineSetC6 : MachineSet :=
  ⟨"ns1", "s6", "uid6", some 3,
   [(nodeGroupMinSizeAnnotationKey, "1"), (nodeGroupMaxSizeAnnotationKey, "5")],
   [], []⟩

def exMachineC6 : Machine :=
  ⟨"ns1", "m6", some "p6", [⟨"MachineSet", "s6", "uid6"⟩], none, []⟩

def exNodegroupC6 : Nodegroup := ⟨ScalableResource.machineSet exMachineSetC6, 1, 5⟩

def exControllerC6 : MachineController :=
  ⟨[exMachineC6], [exMachineSetC6], [], [⟨"n6", "p6", []⟩], false, none, none, none⟩

theorem nodeGroups_eligibility_witness :
    eligibleNodegroup exNodegroupC6 = true ∧
    exNodegroupC6.maxSize - exNodegroupC6.minSize ≥ 1 :=
  ⟨(nodeGroups_eligibility exControllerC6).1 [exNodegroupC6] rfl exNodegroupC6
     (by simp),
   (nodeGroups_eligibility exControllerC6).2 ⟨"n6", "p6", []⟩ exNodegroupC6 rfl⟩

end OpenshiftMachineAPI
